import Mathlib

/-!
Verification development for the defense-cooperation chatbot repository.

This file gives a shallow embedding, in Lean 4, of the response-selection and
diversity-filtering pipeline of the repository:

* `src/llama_integration.py` — `ResponseDiversityManager` (bounded response
  history, similarity gate, diversity metrics), `EnhancedResponseGenerator`
  (template classification and sampling) and
  `DefenseCooperationLlama.generate_response` (the retry loop);
* `src/prompt_engineering.py` — `LlamaPromptEngineer.find_pdf_answer` and
  `LlamaPromptEngineer.is_defense_related`;
* `src/chatbot.py` — `DefenseCooperationChatbot.chat` / `detailed_chat`.

Modelling conventions:

* Python strings are Lean `String`s; `x in s` (substring test) is embedded by
  `pyContains`, `str.lower()` by `pyLower` (ASCII case folding; the Korean
  characters appearing in the corpus are unaffected by case folding in both
  Python and this model), `str.strip()` by `String.trim`.
* Python floats are embedded as exact rationals `ℚ`.  All float literals in
  the source (`0.65`, `0.5`, similarity ratios `2*M/T`) are small dyadic or
  small-denominator rationals, far from any comparison boundary, so exact
  rational arithmetic agrees with the source's double arithmetic on every
  value these programs produce.  Rational constants are written with `mkRat`
  so that concrete runs reduce inside the kernel.
* `difflib.SequenceMatcher(None, a, b).ratio()` is embedded by `ratioFn`,
  a direct translation of difflib's longest-matching-block recursion.  The
  `autojunk` heuristic of difflib only activates when `len(b) >= 200`; all
  histories this development evaluates concretely are far shorter, and the
  generic theorems do not unfold `ratioFn`, so it is embedded without junk.
  The recursion of `get_matching_blocks` is written with an explicit fuel
  argument (`a.length + 1` suffices: each recursive call strictly shrinks
  the `a`-interval) so that every function is structurally recursive and
  kernel-computable.
* Randomness (`random.choice`) and the external model are modelled as oracle
  parameters: a choice index, a header-diversification function, and a
  per-attempt candidate generator.  Theorems quantify over all oracles.
* Wall-clock timestamps (`time.time()`) are an opaque rational parameter.
-/

/-! ## String utilities: Python `in`, `lower`, `strip` -/

/-- Python's substring test `pat in s`, on character lists. -/
def listContains (pat : List Char) : List Char → Bool
  | [] => pat.isEmpty
  | c :: rest => pat.isPrefixOf (c :: rest) || listContains pat rest

/-- Python's substring test `pat in s` for strings. -/
def pyContains (s pat : String) : Bool :=
  listContains pat.toList s.toList

/-- Python's `str.lower()`.  Case folding of the ASCII range; the Korean
syllables used throughout the corpus have no case and are left unchanged,
exactly as in Python. -/
def pyLower (s : String) : String :=
  ⟨s.toList.map Char.toLower⟩

theorem listContains_iff (pat : List Char) :
    ∀ l, listContains pat l = true ↔ pat <:+: l := by
  intro l
  induction l with
  | nil =>
    simp [listContains, List.infix_nil, List.isEmpty_iff]
  | cons c rest ih =>
    simp only [listContains, Bool.or_eq_true, List.isPrefixOf_iff_prefix, ih,
      List.infix_cons_iff]

/-! ## `difflib.SequenceMatcher` ratio

Embedding of CPython `difflib.SequenceMatcher(None, a, b)`:
`find_longest_match` (dynamic programming over `j2len`, no junk),
`get_matching_blocks` (recursive split around the longest match) and
`ratio() = 2*M/T`. -/

/-- `j2len.get(j, 0)` on an association list. -/
def j2lenGet (m : List (Nat × Nat)) (j : Nat) : Nat :=
  match m with
  | [] => 0
  | (k, v) :: rest => if k = j then v else j2lenGet rest j

/-- Inner loop of `find_longest_match`: scan `j` over `[blo, bhi)` for row `i`
(character `c = a[i]`), building the new `j2len` row and updating the best
block `(besti, bestj, bestsize)`.  `cnt` counts the remaining `j` values. -/
def flmRow (c : Char) (b : List Char) (i : Nat) (old : List (Nat × Nat)) :
    Nat → Nat → List (Nat × Nat) → Nat × Nat × Nat → List (Nat × Nat) × (Nat × Nat × Nat)
  | 0, _, acc, best => (acc, best)
  | cnt + 1, j, acc, best =>
    if b.getD j ' ' = c ∧ j < b.length then
      let k := (if j = 0 then 0 else j2lenGet old (j - 1)) + 1
      let best' := if best.2.2 < k then (i + 1 - k, j + 1 - k, k) else best
      flmRow c b i old cnt (j + 1) ((j, k) :: acc) best'
    else
      flmRow c b i old cnt (j + 1) acc best

/-- Outer loop of `find_longest_match`: rows `i` over `[alo, ahi)`. -/
def flmGo (a b : List Char) (blo bhi : Nat) :
    Nat → Nat → List (Nat × Nat) → Nat × Nat × Nat → Nat × Nat × Nat
  | 0, _, _, best => best
  | cnt + 1, i, j2len, best =>
    let c := a.getD i ' '
    let step := flmRow c b i j2len (bhi - blo) blo [] best
    flmGo a b blo bhi cnt (i + 1) step.1 step.2

/-- `SequenceMatcher.find_longest_match(alo, ahi, blo, bhi)` with no junk:
returns `(i, j, k)`, the longest block `a[i:i+k] == b[j:j+k]` inside the
rectangle, earliest in `a` then in `b`.  (With no junk, difflib's trailing
junk-extension loops are no-ops.) -/
def findLongestMatch (a b : List Char) (alo ahi blo bhi : Nat) : Nat × Nat × Nat :=
  flmGo a b blo bhi (ahi - alo) alo [] (alo, blo, 0)

/-- Total size `M` of the matching blocks of `get_matching_blocks`, by the
standard recursive split around the longest match.  `fuel` only bounds the
recursion depth; `a.length + 1` is always sufficient because each recursive
call strictly shrinks the `a`-interval. -/
def matchedSize (a b : List Char) : Nat → Nat → Nat → Nat → Nat → Nat
  | 0, _, _, _, _ => 0
  | fuel + 1, alo, ahi, blo, bhi =>
    let m := findLongestMatch a b alo ahi blo bhi
    if m.2.2 = 0 then 0
    else
      matchedSize a b fuel alo m.1 blo m.2.1 + m.2.2 +
        matchedSize a b fuel (m.1 + m.2.2) ahi (m.2.1 + m.2.2) bhi

/-- `SequenceMatcher(None, a, b).ratio() = 2*M/T` (and `1.0` when `T = 0`),
as an exact rational. -/
def ratioFn (a b : String) : ℚ :=
  let la := a.toList
  let lb := b.toList
  let t := la.length + lb.length
  if t = 0 then 1
  else mkRat (2 * matchedSize la lb (la.length + 1) 0 la.length 0 lb.length) t

/-! ## `ResponseDiversityManager` (`src/llama_integration.py`, lines 28–97) -/

/-- One record of `response_history` (`add_response`, lines 39–44). -/
structure ResponseRecord where
  query : String
  response : String
  timestamp : ℚ
  keywords : List String
deriving DecidableEq, Repr

/-- One record of `rejected_responses` (`generate_response`, lines 973–978). -/
structure RejectedRecord where
  query : String
  response : String
  similarity : ℚ
  attempt : Nat
deriving DecidableEq, Repr

/-- The mutable state of `ResponseDiversityManager`. -/
structure DiversityState where
  response_history : List ResponseRecord
  max_history : Nat
  similarity_threshold : ℚ
  rejected_responses : List RejectedRecord
deriving DecidableEq, Repr

/-- `ResponseDiversityManager()` — the constructor defaults
`max_history=10, similarity_threshold=0.65` (lines 31–35). -/
def initDiversityState : DiversityState :=
  { response_history := []
    max_history := 10
    similarity_threshold := mkRat 13 20
    rejected_responses := [] }

/-- The fixed vocabulary of `_extract_keywords` (lines 52–54). -/
def defenseTerms : List String :=
  ["미사일", "방공", "항공", "해군", "협력", "투자", "수출",
   "기술이전", "무인", "드론", "레이더", "사이버", "AI", "개발",
   "인도", "UAE", "브라질", "동남아", "중동", "아프리카"]

/-- `ResponseDiversityManager._extract_keywords` (lines 49–59). -/
def extractKeywords (text : String) : List String :=
  defenseTerms.filter (fun term => pyContains text term)

/-- The history record built by `add_response` (lines 39–44). -/
def mkResponseRecord (query response : String) (now : ℚ) : ResponseRecord :=
  { query := query
    response := response
    timestamp := now
    keywords := extractKeywords response }

/-- `ResponseDiversityManager.add_response` (lines 37–47): append, then
`pop(0)` if the history exceeds `max_history`. -/
def addResponse (st : DiversityState) (query response : String) (now : ℚ) : DiversityState :=
  let hist := st.response_history ++ [mkResponseRecord query response now]
  { st with
    response_history := if st.max_history < hist.length then hist.tail else hist }

/-- Python's `l[-n:]`: the last `min n (length l)` elements, in order. -/
def lastN (n : Nat) (l : List α) : List α :=
  l.drop (l.length - n)

/-- Python's binary `max` on rationals (returns the first argument on ties,
which coincides with `max` on a linear order). -/
def pyMax (a b : ℚ) : ℚ :=
  if a < b then b else a

/-- The comparison loop of `check_similarity` (lines 66–74): walk the last 5
records accumulating the running maximum; return `(True, similarity)` as soon
as one ratio exceeds the threshold, else `(False, max)`. -/
def simLoop (thr : ℚ) (newResponse : String) :
    List ResponseRecord → ℚ → Bool × ℚ
  | [], maxSim => (false, maxSim)
  | record :: rest, maxSim =>
    let similarity := ratioFn newResponse record.response
    let maxSim' := pyMax maxSim similarity
    if thr < similarity then (true, similarity)
    else simLoop thr newResponse rest maxSim'

/-- `ResponseDiversityManager.check_similarity` (lines 61–74). -/
def checkSimilarity (st : DiversityState) (newResponse : String) : Bool × ℚ :=
  if st.response_history = [] then (false, 0)
  else simLoop st.similarity_threshold newResponse (lastN 5 st.response_history) 0

/-- The pairwise-similarity list of `get_diversity_metrics` (lines 81–87):
ratios of all unordered pairs of the given responses, in double-loop order. -/
def pairwiseSims : List String → List ℚ
  | [] => []
  | r :: rest => rest.map (fun s => ratioFn r s) ++ pairwiseSims rest

/-- The dictionary returned by `get_diversity_metrics`.  The source returns a
dict with only `diversity_score` and `avg_similarity` when the history holds
fewer than 2 records, and additionally `total_responses` and `rejected_count`
otherwise; the two optional fields are embedded as `Option`. -/
structure DiversityMetrics where
  diversity_score : ℚ
  avg_similarity : ℚ
  total_responses : Option Nat
  rejected_count : Option Nat
deriving DecidableEq, Repr

/-- `ResponseDiversityManager.get_diversity_metrics` (lines 76–97). -/
def getDiversityMetrics (st : DiversityState) : DiversityMetrics :=
  if st.response_history.length < 2 then
    { diversity_score := 1, avg_similarity := 0
      total_responses := none, rejected_count := none }
  else
    let responses := (lastN 5 st.response_history).map (fun r => r.response)
    let similarities := pairwiseSims responses
    let avg_similarity :=
      if similarities = [] then 0 else similarities.sum / (similarities.length : ℚ)
    { diversity_score := 1 - avg_similarity
      avg_similarity := avg_similarity
      total_responses := some st.response_history.length
      rejected_count := some st.rejected_responses.length }

/-! ## `EnhancedResponseGenerator` (`src/llama_integration.py`, lines 144–884)

The template corpus `_create_comprehensive_templates` is a static mapping
from category key to a list of pre-written answer strings (e.g. the category
`"인도_미사일"` holds 5 templates).  The corpus is pure data that the
selection logic never inspects, so it is a parameter
`tmpl : String → Option (List String)` of the embedding (`tmpl key` models
`response_templates.get(key)`).  `random.choice` is modelled by a caller-
supplied index, and `_diversify_headers` (a randomized textual rewrite) by a
caller-supplied function `divHdr`. -/

/-- `EnhancedResponseGenerator._classify_query_for_template` (lines 854–871). -/
def classifyQueryForTemplate (query : String) : String :=
  let ql := pyLower query
  if pyContains ql "인도" ∧ (pyContains ql "미사일" ∨ pyContains ql "협력") then
    "인도_미사일"
  else if pyContains ql "uae" ∨ pyContains ql "아랍에미리트" then "UAE_투자"
  else if pyContains ql "브라질" then "브라질_항공"
  else if ["인도네시아", "태국", "말레이시아", "동남아"].any (fun c => pyContains ql c) then
    "동남아_협력"
  else if ["이집트", "중동", "북아프리카"].any (fun c => pyContains ql c) then
    "중동_북아프리카"
  else if pyContains ql "아프리카" then "아프리카"
  else "인도_미사일"

/-- `available_templates` of `get_diverse_response` (lines 838–842):
`response_templates.get(template_key, response_templates["인도_미사일"])`,
falling back to the `"인도_미사일"` list again when the result is empty. -/
def availableTemplates (tmpl : String → Option (List String)) (key : String) : List String :=
  let dflt := (tmpl "인도_미사일").getD []
  let avail := (tmpl key).getD dflt
  if avail = [] then dflt else avail

/-- The `unused_templates` filter of `get_diverse_response` (lines 844–845):
templates whose identifier `f"{template_key}_{i}"` (with `i` the position in
the category's list) is not in `used_templates`, paired with their index. -/
def unusedTemplates (key : String) (available : List String) (used : List String) :
    List (Nat × String) :=
  available.enum.filter (fun p => ¬ used.contains (key ++ "_" ++ toString p.1))

/-- `EnhancedResponseGenerator.get_diverse_response` (lines 832–852).
`choose` models `random.choice` (reduced modulo the candidate count) and
`divHdr` models `_diversify_headers`. -/
def getDiverseResponse (tmpl : String → Option (List String)) (divHdr : String → String)
    (choose : Nat) (query : String) (used : List String) : String :=
  let key := classifyQueryForTemplate query
  let available := availableTemplates tmpl key
  let unused := (unusedTemplates key available used).map (fun p => p.2)
  if unused ≠ [] then divHdr (unused.getD (choose % unused.length) "")
  else divHdr (available.getD (choose % available.length) "")

/-! ## `DefenseCooperationLlama.generate_response` (lines 936–1006)

The per-request pipeline: up to `max_attempts = 3` candidates are generated
(template sampling in dummy mode, the external model otherwise — both
modelled by the oracle `gen : Nat → String` giving the candidate of each
attempt), each is checked by the diversity manager, rejected candidates are
logged to `rejected_responses`, and the accepted response is recorded with
`add_response` together with `used_templates.append(f"{template_key}_{attempt}")`. -/

/-- The cross-request mutable state of `DefenseCooperationLlama` used by
`generate_response`: the diversity manager and `used_templates`. -/
structure LlamaState where
  diversity : DiversityState
  used_templates : List String
deriving DecidableEq, Repr

/-- The state of a fresh `DefenseCooperationLlama` (lines 889–901). -/
def initLlamaState : LlamaState :=
  { diversity := initDiversityState, used_templates := [] }

/-- The outcome of one `generate_response` call: the updated state, the
returned `response`, and `model_info["attempts"] = attempt + 1`. -/
structure GenOutcome where
  state : LlamaState
  response : String
  attempts : Nat
deriving DecidableEq, Repr

/-- The `for attempt in range(max_attempts)` loop of `generate_response`
(lines 946–978).  The argument `remaining` is `max_attempts - attempt`; the
Python guard `attempt == max_attempts - 1` is `remaining = 1`, i.e. the
`remaining = 0` test after pattern matching.  On acceptance the loop breaks,
records the response, and appends `f"{key}_{attempt}"` to `used_templates`;
on rejection it appends a `RejectedRecord` with 1-based attempt number. -/
def genLoop (query : String) (now : ℚ) (key : String) (gen : Nat → String) :
    Nat → Nat → LlamaState → GenOutcome
  | 0, attempt, st => ⟨st, "", attempt⟩
  | remaining + 1, attempt, st =>
    let response := gen attempt
    let check := checkSimilarity st.diversity response
    if check.1 = false ∨ remaining = 0 then
      ⟨{ diversity := addResponse st.diversity query response now
         used_templates := st.used_templates ++ [key ++ "_" ++ toString attempt] },
       response, attempt + 1⟩
    else
      genLoop query now key gen remaining (attempt + 1)
        { st with
          diversity :=
            { st.diversity with
              rejected_responses := st.diversity.rejected_responses ++
                [{ query := query, response := response,
                   similarity := check.2, attempt := attempt + 1 }] } }

/-- `DefenseCooperationLlama.generate_response` (success path, lines 941–996):
`max_attempts = 3`, starting at `attempt = 0`. -/
def generateResponse (gen : Nat → String) (query : String) (now : ℚ)
    (st : LlamaState) : GenOutcome :=
  genLoop query now (classifyQueryForTemplate query) gen 3 0 st
/-! ## `LlamaPromptEngineer` (`src/prompt_engineering.py`) -/

/-- One entry of `_build_pdf_qa_database` (lines 80–229): the canonical
key, the keyword set, and the full registered answer. -/
structure QaEntry where
  key : String
  keywords : List String
  response : String
deriving DecidableEq, Repr

/-- The `"중동_우선순위"` entry of `_build_pdf_qa_database`, answer text verbatim. -/
def qaMena : QaEntry where
  key := "중동_우선순위"
  keywords := ["중동", "북아프리카", "우선순위", "순위"]
  response := "중동 및 북아프리카 지역의 방산 수출 우선순위는 다음과 같습니다:\n\n**1순위: UAE (아랍에미리트)**\n- 방위산업 투자: 연간 약 220억 달러\n- 중점 기술 영역: 미사일 방어, 전자전, 무인 시스템\n- 상보적 기술: 고급 레이더 시스템, 전자정보 시스템\n- 시장 기회: 기술 다변화 추진으로 새로운 파트너 모색 중\n- 협력 용이성: 높음 (한-UAE 특별 전략적 파트너십)\n\n**2순위: 이집트**\n- 방위산업 투자: 연간 약 50억 달러 (아프리카 최대)\n- 중점 기술 영역: 사막 환경 운용, 방공망 운용, 대테러 장비\n- 상보적 기술: 극한 사막환경 장비 운용 노하우\n- 시장 기회: K9 자주포 수출 등 기존 협력 경험\n\n**3순위: 카타르**\n- 방위산업 투자: 중간 규모이나 구매력 우수\n- 중점 기술 영역: 방공, 해양 보안\n- 협력 장벽: 지역 정치적 복잡성\n\n**4순위: 모로코**\n- 방위산업 투자: 상대적으로 제한적\n- 중점 기술 영역: 국경 감시, 대테러\n- 시장 기회: 아프리카 진출 교두보 가능"

/-- The `"남아시아_우선순위"` entry of `_build_pdf_qa_database`, answer text verbatim. -/
def qaSouthAsia : QaEntry where
  key := "남아시아_우선순위"
  keywords := ["남아시아", "동남아시아", "우선순위", "인도"]
  response := "남아시아 및 동남아시아 지역의 방산 수출 우선순위는 다음과 같습니다:\n\n**1순위: 인도**\n- 방위산업 투자: 연간 약 730억 달러 (세계 3위)\n- 중점 기술 영역: 미사일 기술, 항공우주, 전자전\n- 상보적 기술: 미사일 유도 시스템, 소프트웨어 개발, 위성 기술\n- 시장 기회: \x27Make in India\x27 정책으로 공동생산 가능성 높음\n- 전략적 중요성: 매우 높음\n\n**2순위: 인도네시아**\n- 방위산업 투자: 연간 약 90억 달러\n- 중점 기술 영역: 해양 안보, 열대환경 장비\n- 상보적 기술: 열대/해양 환경 최적화 기술\n- 협력 경험: KF-21 공동개발 파트너\n- 시장 기회: 아세안 최대 시장\n\n**3순위: 태국**\n- 방위산업 투자: 연간 약 70억 달러\n- 중점 기술 영역: 국경 감시, 대테러 장비\n- 기존 협력: K9 자주포 도입 경험\n- 상보적 기술: 열대 환경 운용 기술\n\n**4순위: 말레이시아**\n- 방위산업 투자: 연간 약 40억 달러\n- 중점 기술 영역: 해양 감시, 사이버 방어\n- 협력 경험: FA-50 도입\n- 시장 특성: 중급 규모이나 안정적"

/-- The `"인도_미사일_협력"` entry of `_build_pdf_qa_database`, answer text verbatim. -/
def qaIndiaMissile : QaEntry where
  key := "인도_미사일_협력"
  keywords := ["인도", "미사일", "협력", "BrahMos", "현무"]
  response := "### 🚀 현무-BrahMos 합동 미사일 개발 프로그램\n- **인도 국방예산**: 730억 달러 (2024년 기준, 세계 3위)\n- **BrahMos 기술력**: 마하 2.8~3.0 초음속 순항미사일, 러시아 합작 성공사례\n- **현무 시리즈**: 사거리 300-800km, 한국 독자개발 정밀타격 무기체계\n- **시장 잠재력**: 동남아-중동 정밀타격 시장 연 5.8% 성장, 118억 달러 규모\n\n### 💰 3단계 투자 계획 (총 23억 달러)\n**1단계: 공동연구개발 (2025-2026, 3억 달러)**\n- 한국 투자: 1.8억 달러 (추진체, 시스템 통합)\n- 인도 투자: 1.2억 달러 (유도시스템, AI 소프트웨어)\n- 부산-첸나이 Twin R&D Center 설립\n- 상호 기술진 파견: 한국 50명 ↔ 인도 60명\n\n**2단계: 프로토타입 개발 (2026-2028, 8억 달러)**\n- 50:50 투자 분담 (각 4억 달러)\n- 목표 성능: 사거리 1,500km, CEP 1m 이하\n- 시험장: 인도 칼람섬, 한국 안흥시험장\n- MTCR 규제 대응: 300km 버전부터 단계적 개발\n\n**3단계: 양산 및 수출 (2028-2030, 12억 달러)**\n- 한국 생산분: 5억 달러 (연간 80기)\n- 인도 생산분: 7억 달러 (연간 120기, Make in India 60% 현지화)\n- 1차 수출 대상: 베트남 50기, 필리핀 30기, 태국 40기\n\n### 📊 투자수익률 분석 (10년 기준)\n- **직접 수출수익**: 40억 달러 (미사일 본체 판매)\n- **기술 라이센싱**: 8억 달러 (현지생산 로열티 3-5%)\n- **MRO 서비스**: 12억 달러 (20년 유지보수 계약)\n- **총 ROI**: 332% (회수기간 4.8년)\n- **고용창출**: 직간접 15,000명\n\n### 🎯 기술 융합 혁신점\n**추진체 기술 결합**\n- 인도 램제트 엔진 + 한국 고체추진체\n- 연료효율 35% 개선, 사거리 20% 연장\n- 하이브리드 궤도: 초음속 순항 + 탄도미사일 복합\n\n**AI 기반 정밀 유도**\n- 인도 AI 소프트웨어 (93% 위협식별 정확도)\n- 한국 하드웨어 플랫폼 (다중센서 융합)\n- 실시간 표적 식별 및 부수피해 최소화\n\n### 🌏 지정학적 의미\n- **Quad 체제 강화**: 인도-태평양 전략에서 한국 역할 확대\n- **중국 견제**: 동아시아-남아시아 연결축 형성  \n- **기술 자립**: 서구 의존도 감소, 아시아 기술생태계 구축\n\n*[AI 분석 - 인도 DRDO 공식 데이터 기반]*"

/-- The `"UAE_투자"` entry of `_build_pdf_qa_database`, answer text verbatim. -/
def qaUaeInvest : QaEntry where
  key := "UAE_투자"
  keywords := ["UAE", "투자", "규모", "아랍에미리트"]
  response := "### 🇦🇪 UAE와 한국의 기술 통합 전략 비즈니스 모델\n\n## 1. 사막환경 최적화 통합 방공시스템\n**협력 구조:**\n- 한국: 천궁 미사일 시스템 + 시스템 통합 기술\n- UAE: 고온환경 적응 기술 + 현지 맞춤화 기술\n- 투자 규모: 총 7억 달러 (한국 4억, UAE 3억)\n- 생산 분담: 한국 60%, UAE 40%\n\n**비즈니스 모델:**\n- Phase 1: 공동개발 (2년, 2억 달러)\n- Phase 2: 시제품 제작 및 시험 (1년, 1.5억 달러)\n- Phase 3: 양산 및 GCC 지역 마케팅 (3년, 3.5억 달러)\n\n## 2. 통합 C4ISR 체계 개발\n**협력 구조:**\n- 한국: TICN 지휘통제 체계 + 네트워크 기술\n- UAE: NASSR 고성능 레이더 + 극한기후 적응 기술\n- 투자 규모: 총 8억 달러 (50:50 분담)\n\n**수익 모델:**\n- 기술 라이센싱: 생산액의 3-5% 로열티\n- 유지보수 서비스: 연간 매출의 15-20%\n- 업그레이드 패키지: 시스템 가격의 30-40%\n\n## 3. 드론 방어 통합 솔루션\n**혁신적 협력 모델:**\n- 한국: 안티드론 레이더 + 하드웨어 플랫폼\n- UAE: D-Fend 전자전 기술 + AI 기반 위협 분석\n- 시장 확장: 군사용 → 민간 인프라 보호로 확대\n\n**예상 효과:**\n- 경제적: 10년간 90억 달러 수출 창출\n- 기술적: 극한환경 기술 확보로 글로벌 경쟁력 강화\n- 전략적: 중동 방산 협력 허브 구축"

/-- `LlamaPromptEngineer._build_pdf_qa_database` (lines 80–229), in Python
dict insertion order (the order `find_pdf_answer` iterates in). -/
def pdfQaDatabase : List QaEntry :=
  [qaMena, qaSouthAsia, qaIndiaMissile, qaUaeInvest]

/-- The per-entry keyword match count of `find_pdf_answer` (line 269):
`sum(1 for keyword in keywords if keyword in query_lower)`.  Note that the
keywords are matched verbatim against the *lowercased* query. -/
def matchScore (queryLower : String) (entry : QaEntry) : Nat :=
  (entry.keywords.filter (fun keyword => pyContains queryLower keyword)).length

/-- The acceptance test of `find_pdf_answer` (lines 270–272):
`match_score >= len(keywords) * 0.5`.  The comparison is stated integrally
(`2 * score ≥ len`), which is exactly the source's float comparison for
these magnitudes. -/
def clearsThreshold (queryLower : String) (entry : QaEntry) : Bool :=
  entry.keywords.length ≤ 2 * matchScore queryLower entry

/-- The scan loop of `find_pdf_answer` (lines 266–275): walk the database in
insertion order and return the response of the first entry whose keyword
match count reaches half its keyword-set size. -/
def findPdfAnswerLoop (queryLower : String) : List QaEntry → Option String
  | [] => none
  | entry :: rest =>
    if clearsThreshold queryLower entry then some entry.response
    else findPdfAnswerLoop queryLower rest

/-- `LlamaPromptEngineer.find_pdf_answer` (lines 262–275). -/
def findPdfAnswer (userQuery : String) : Option String :=
  findPdfAnswerLoop (pyLower userQuery) pdfQaDatabase

/-- The fixed defense-domain vocabulary of `is_defense_related`
(lines 377–381). -/
def defenseKeywords : List String :=
  ["방산", "미사일", "방어", "군사", "무기", "협력", "수출", "투자",
   "인도", "UAE", "브라질", "중동", "동남아", "아프리카", "기술이전",
   "사이버", "우주", "항공", "해양", "AI", "드론", "레이더", "방공"]

/-- `LlamaPromptEngineer.is_defense_related` (lines 375–384):
`any(keyword in query.lower() for keyword in defense_keywords)`. -/
def isDefenseRelated (query : String) : Bool :=
  let queryLower := pyLower query
  defenseKeywords.any (fun keyword => pyContains queryLower keyword)

/-! ## `DefenseCooperationChatbot.chat` / `detailed_chat`
(`src/chatbot.py`, lines 608–706)

Both methods wrap the whole request in `try/except`: the optional external
system (`llama_system.generate_response`) is tried first inside its own
`try/except` (any exception there is swallowed and the pipeline falls through
to the built-in generator), and any exception from the built-in generator is
caught at the method boundary and converted into a fixed textual apology
carrying `str(e)`.  Fallible Python calls are embedded as `Except String`
oracle outcomes; writes to `response_history` and logging do not affect the
returned value and are omitted. -/

/-- The dictionary returned by `generate_response`, restricted to the fields
`chat`/`detailed_chat` inspect: the `response` text and the `error` flag. -/
structure GenResultDict where
  response : String
  error : Bool
deriving DecidableEq, Repr

/-- The oracle describing one request's environment: whether `llama_system`
is set, the outcome of `llama_system.generate_response` (exception or dict),
and the outcome of `intelligent_generator.generate_response`. -/
structure ChatOracle where
  llamaAvailable : Bool
  llamaResult : Except String GenResultDict
  intelligentResult : Except String String

/-- The quality gate of `chat` (line 623):
`response and len(response.strip()) > 50 and "Template" not in response`. -/
def qualityOk (response : String) : Bool :=
  response ≠ "" ∧ 50 < response.trim.length ∧ ¬ pyContains response "Template"

/-- `DefenseCooperationChatbot.chat` (lines 608–643). -/
def chat (isInitialized : Bool) (o : ChatOracle) (_userInput : String) : String :=
  if ¬ isInitialized then "❌ 시스템이 초기화되지 않았습니다."
  else
    let external : Option String :=
      if o.llamaAvailable then
        match o.llamaResult with
        | .ok result => if qualityOk result.response then some result.response else none
        | .error _ => none
      else none
    match external with
    | some response => response
    | none =>
      match o.intelligentResult with
      | .ok response => response
      | .error e => "죄송합니다. 응답 생성 중 오류가 발생했습니다: " ++ e

/-- The dictionary returned by `detailed_chat`, restricted to the fields the
claims are about: the `response` entry (always present), the `error` flag,
and the `model_info["mode"]` tag when one is set. -/
structure DetailedResult where
  response : String
  error : Bool
  mode : Option String
deriving DecidableEq, Repr

/-- `DefenseCooperationChatbot.detailed_chat` (lines 645–706). -/
def detailedChat (isInitialized : Bool) (o : ChatOracle) (_userInput : String) :
    DetailedResult :=
  if ¬ isInitialized then
    { response := "시스템이 초기화되지 않았습니다.", error := true, mode := none }
  else
    let external : Option GenResultDict :=
      if o.llamaAvailable then
        match o.llamaResult with
        | .ok result => if qualityOk result.response then some result else none
        | .error _ => none
      else none
    match external with
    | some result => { response := result.response, error := result.error, mode := none }
    | none =>
      match o.intelligentResult with
      | .ok response =>
        { response := response, error := false
          mode := some "intelligent_dynamic_generation" }
      | .error e =>
        { response := "상세 응답 생성 중 오류가 발생했습니다: " ++ e
          error := true, mode := some "error_handling" }

set_option maxRecDepth 20000

/-! ## Helper lemmas -/

theorem pyMax_eq_max (a b : ℚ) : pyMax a b = max a b := by
  unfold pyMax
  rcases lt_or_le a b with h | h
  · rw [if_pos h, max_eq_right h.le]
  · rw [if_neg (not_lt.mpr h), max_eq_left h]

theorem ratioFn_nonneg (a b : String) : 0 ≤ ratioFn a b := by
  unfold ratioFn
  dsimp only
  split
  · exact zero_le_one
  · exact Rat.mkRat_nonneg (by positivity) _

/-- The early-return flag of `simLoop` is independent of the accumulator and
is `false` exactly when no scanned ratio exceeds the threshold. -/
theorem simLoop_fst_false_iff (thr : ℚ) (s : String) :
    ∀ (l : List ResponseRecord) (acc : ℚ),
      (simLoop thr s l acc).1 = false ↔
        ∀ r ∈ l, ratioFn s r.response ≤ thr := by
  intro l
  induction l with
  | nil => intro acc; simp [simLoop]
  | cons r rest ih =>
    intro acc
    by_cases h : thr < ratioFn s r.response
    · simp [simLoop, if_pos h, h, not_le.mpr h]
    · simp only [simLoop, if_neg h, ih, List.mem_cons]
      constructor
      · rintro hall r' (rfl | hr')
        · exact not_lt.mp h
        · exact hall r' hr'
      · intro hall r' hr'
        exact hall r' (Or.inr hr')

/-- When `simLoop` never trips, it returns the left fold of `max` over the
scanned ratios, seeded with the accumulator. -/
theorem simLoop_snd_of_false (thr : ℚ) (s : String) :
    ∀ (l : List ResponseRecord) (acc : ℚ),
      (simLoop thr s l acc).1 = false →
      (simLoop thr s l acc).2 =
        (l.map (fun r => ratioFn s r.response)).foldl max acc := by
  intro l
  induction l with
  | nil => intro acc _; simp [simLoop]
  | cons r rest ih =>
    intro acc hfalse
    by_cases h : thr < ratioFn s r.response
    · rw [simLoop, if_pos h] at hfalse
      exact absurd hfalse (by simp)
    · rw [simLoop, if_neg h] at hfalse ⊢
      rw [ih _ hfalse, List.map_cons, List.foldl_cons, pyMax_eq_max]

/-- When `simLoop` trips, it returns the ratio of the first scanned record
exceeding the threshold. -/
theorem simLoop_snd_of_true (thr : ℚ) (s : String) :
    ∀ (l : List ResponseRecord) (acc : ℚ),
      (simLoop thr s l acc).1 = true →
      ∃ r ∈ l,
        l.find? (fun rec => decide (thr < ratioFn s rec.response)) = some r ∧
        (simLoop thr s l acc).2 = ratioFn s r.response ∧
        thr < ratioFn s r.response := by
  intro l
  induction l with
  | nil => intro acc h; simp [simLoop] at h
  | cons r rest ih =>
    intro acc htrue
    by_cases h : thr < ratioFn s r.response
    · refine ⟨r, List.mem_cons_self r rest, ?_, ?_, h⟩
      · rw [List.find?_cons_of_pos _ (by simpa using h)]
      · rw [simLoop, if_pos h]
    · rw [simLoop, if_neg h] at htrue
      obtain ⟨r', hmem, hfind, hval, hgt⟩ := ih _ htrue
      refine ⟨r', List.mem_cons_of_mem r hmem, ?_, ?_, hgt⟩
      · rw [List.find?_cons_of_neg _ (by simpa using h), hfind]
      · rw [simLoop, if_neg h, hval]

/-- The accumulator never exceeds a left `max` fold. -/
theorem le_foldl_max : ∀ (l : List ℚ) (acc : ℚ), acc ≤ l.foldl max acc := by
  intro l
  induction l with
  | nil => intro acc; exact le_refl _
  | cons x rest ih =>
    intro acc
    calc acc ≤ max acc x := le_max_left _ _
      _ ≤ (x :: rest).foldl max acc := by rw [List.foldl_cons]; exact ih _

/-- A left `max` fold either returns its seed or an element of the list. -/
theorem foldl_max_mem : ∀ (l : List ℚ) (acc : ℚ),
    l.foldl max acc = acc ∨ l.foldl max acc ∈ l := by
  intro l
  induction l with
  | nil => intro acc; left; rfl
  | cons x rest ih =>
    intro acc
    rw [List.foldl_cons]
    rcases ih (max acc x) with heq | hmem
    · rcases le_total x acc with hle | hle
      · left; rw [heq, max_eq_left hle]
      · right; rw [heq, max_eq_right hle]; exact List.mem_cons_self x rest
    · right; exact List.mem_cons_of_mem x hmem

/-- A left `max` fold bounds every element of the list. -/
theorem foldl_max_bound : ∀ (l : List ℚ) (acc : ℚ), ∀ x ∈ l, x ≤ l.foldl max acc := by
  intro l
  induction l with
  | nil => intro acc x hx; simp at hx
  | cons y rest ih =>
    intro acc x hx
    rw [List.foldl_cons]
    rcases List.mem_cons.mp hx with rfl | hx'
    · calc x ≤ max acc x := le_max_right _ _
        _ ≤ rest.foldl max (max acc x) := le_foldl_max _ _
    · exact ih _ x hx'

/-- A left `max` fold over a nonempty list of nonnegative rationals, seeded
with `0`, is the greatest element of the list. -/
theorem foldl_max_isGreatest (l : List ℚ) (hne : l ≠ []) (hpos : ∀ x ∈ l, 0 ≤ x) :
    l.foldl max 0 ∈ l ∧ ∀ x ∈ l, x ≤ l.foldl max 0 := by
  refine ⟨?_, foldl_max_bound l 0⟩
  rcases foldl_max_mem l 0 with heq | hmem
  · cases l with
    | nil => exact absurd rfl hne
    | cons x rest =>
      have hb := foldl_max_bound (x :: rest) 0 x (List.mem_cons_self x rest)
      rw [heq] at hb
      have hx0 : x = 0 := le_antisymm hb (hpos x (List.mem_cons_self x rest))
      rw [heq, ← hx0]
      exact List.mem_cons_self x rest
  · exact hmem

/-- `check_similarity` reports acceptance exactly when no ratio against the
last 5 history entries exceeds the threshold. -/
theorem checkSimilarity_fst_false_iff (st : DiversityState) (s : String) :
    (checkSimilarity st s).1 = false ↔
      ∀ r ∈ lastN 5 st.response_history, ratioFn s r.response ≤ st.similarity_threshold := by
  unfold checkSimilarity
  by_cases h : st.response_history = []
  · rw [if_pos h, h]
    simp [lastN]
  · rw [if_neg h]
    exact simLoop_fst_false_iff _ _ _ _

/-- `check_similarity` reports rejection exactly when some ratio against the
last 5 history entries exceeds the threshold. -/
theorem checkSimilarity_fst_true_iff (st : DiversityState) (s : String) :
    (checkSimilarity st s).1 = true ↔
      ∃ r ∈ lastN 5 st.response_history, st.similarity_threshold < ratioFn s r.response := by
  rw [← Bool.not_eq_false, not_iff_comm, checkSimilarity_fst_false_iff]
  push_neg
  simp only [not_lt]

/-- On acceptance, `check_similarity` returns the maximum ratio (or `0.0` for
an empty history). -/
theorem checkSimilarity_snd_of_false (st : DiversityState) (s : String)
    (h : (checkSimilarity st s).1 = false) :
    (∀ r ∈ lastN 5 st.response_history,
        ratioFn s r.response ≤ (checkSimilarity st s).2) ∧
    ((checkSimilarity st s).2 = 0 ∨
      (checkSimilarity st s).2 ∈
        (lastN 5 st.response_history).map (fun r => ratioFn s r.response)) := by
  by_cases hhist : st.response_history = []
  · constructor
    · intro r hr
      rw [hhist] at hr
      simp [lastN] at hr
    · left
      simp [checkSimilarity, if_pos hhist]
  · have hch : checkSimilarity st s =
        simLoop st.similarity_threshold s (lastN 5 st.response_history) 0 := by
      simp [checkSimilarity, if_neg hhist]
    rw [hch] at h ⊢
    have hsnd := simLoop_snd_of_false st.similarity_threshold s _ 0 h
    have hne : lastN 5 st.response_history ≠ [] := by
      intro hempty
      apply hhist
      have hlen := congrArg List.length hempty
      simp only [lastN, List.length_drop, List.length_nil] at hlen
      exact List.length_eq_zero.mp (by omega)
    have hmapne : (lastN 5 st.response_history).map (fun r => ratioFn s r.response) ≠ [] := by
      simpa using hne
    obtain ⟨hmem, hbound⟩ := foldl_max_isGreatest _ hmapne (by
      intro x hx
      obtain ⟨r, _, rfl⟩ := List.mem_map.mp hx
      exact ratioFn_nonneg _ _)
    constructor
    · intro r hr
      rw [hsnd]
      exact hbound _ (List.mem_map_of_mem _ hr)
    · right
      rw [hsnd]
      exact hmem

/-- On rejection, `check_similarity` returns the ratio of the first history
entry (scanning the last 5, oldest first) whose ratio exceeds the threshold —
not necessarily the maximum ratio. -/
theorem checkSimilarity_snd_of_true (st : DiversityState) (s : String)
    (h : (checkSimilarity st s).1 = true) :
    ∃ r ∈ lastN 5 st.response_history,
      (lastN 5 st.response_history).find?
          (fun rec => decide (st.similarity_threshold < ratioFn s rec.response)) = some r ∧
      (checkSimilarity st s).2 = ratioFn s r.response ∧
      st.similarity_threshold < ratioFn s r.response := by
  by_cases hhist : st.response_history = []
  · rw [checkSimilarity, if_pos hhist] at h
    simp at h
  · rw [checkSimilarity, if_neg hhist] at h ⊢
    exact simLoop_snd_of_true _ _ _ _ h

/-! ## Claim C4 -/

/-- C4 (amended): `check_similarity` computes the Ratcliff/Obershelp ratio of
the candidate against each of the last 5 history entries; the rejection flag
is set exactly when some (equivalently, the maximum) such ratio exceeds the
threshold.  On acceptance the returned score is the maximum of the ratios
(`0.0` for an empty history); on rejection it is the ratio of the *first*
entry, in scan order, exceeding the threshold — not necessarily the maximum. -/
theorem check_similarity_flag_and_score (st : DiversityState) (s : String) :
    ((checkSimilarity st s).1 = true ↔
      ∃ r ∈ lastN 5 st.response_history,
        st.similarity_threshold < ratioFn s r.response) ∧
    ((checkSimilarity st s).1 = false →
      (∀ r ∈ lastN 5 st.response_history,
          ratioFn s r.response ≤ (checkSimilarity st s).2) ∧
      ((checkSimilarity st s).2 = 0 ∨
        (checkSimilarity st s).2 ∈
          (lastN 5 st.response_history).map (fun r => ratioFn s r.response))) ∧
    ((checkSimilarity st s).1 = true →
      ∃ r ∈ lastN 5 st.response_history,
        (lastN 5 st.response_history).find?
            (fun rec => decide (st.similarity_threshold < ratioFn s rec.response)) = some r ∧
        (checkSimilarity st s).2 = ratioFn s r.response ∧
        st.similarity_threshold < ratioFn s r.response) :=
  ⟨checkSimilarity_fst_true_iff st s,
   checkSimilarity_snd_of_false st s,
   checkSimilarity_snd_of_true st s⟩

/-- A concrete reachable manager state: two responses recorded on a fresh
`ResponseDiversityManager`. -/
def c4State : DiversityState :=
  addResponse (addResponse initDiversityState "q1" "abcx" 0) "q2" "abcd" 1

/-- C4 counterexample to the claim as stated: with history `["abcx", "abcd"]`
and candidate `"abcd"`, the ratios are `3/4` and `1`; `check_similarity`
rejects and returns `3/4` (the first ratio exceeding `0.65`), which is *not*
the maximum of the ratios (`1`). -/
theorem check_similarity_not_max_counterexample :
    (checkSimilarity c4State "abcd").1 = true ∧
    (checkSimilarity c4State "abcd").2 = mkRat 3 4 ∧
    (∃ r ∈ lastN 5 c4State.response_history,
      (checkSimilarity c4State "abcd").2 < ratioFn "abcd" r.response) := by
  refine ⟨by decide, by decide, ?_⟩
  refine ⟨mkResponseRecord "q2" "abcd" 1, by decide, by decide⟩

/-- C4 witness: the amended characterization evaluated on the concrete state
`c4State` (rejection case) and on a fresh manager (acceptance case with empty
history). -/
theorem check_similarity_flag_and_score_witness :
    ((checkSimilarity c4State "abcd").1 = true ∧
      ∃ r ∈ lastN 5 c4State.response_history,
        (lastN 5 c4State.response_history).find?
            (fun rec => decide (c4State.similarity_threshold < ratioFn "abcd" rec.response)) = some r ∧
        (checkSimilarity c4State "abcd").2 = ratioFn "abcd" r.response ∧
        c4State.similarity_threshold < ratioFn "abcd" r.response) ∧
    ((checkSimilarity initDiversityState "abcd").1 = false ∧
      (checkSimilarity initDiversityState "abcd").2 = 0) :=
  ⟨⟨by decide, (check_similarity_flag_and_score c4State "abcd").2.2 (by decide)⟩,
   ⟨by decide, by decide⟩⟩

/-! ## Characterization of the `generate_response` retry loop -/

/-- `check_similarity` only reads the history and the threshold, so updating
the rejected log does not change it. -/
theorem checkSimilarity_rejected_inv (d : DiversityState) (rej : List RejectedRecord)
    (s : String) :
    checkSimilarity { d with rejected_responses := rej } s = checkSimilarity d s := rfl

/-- `add_response` only reads the history and the capacity, so its new
history does not depend on the rejected log. -/
theorem addResponse_history_rejected_inv (d : DiversityState) (rej : List RejectedRecord)
    (q r : String) (now : ℚ) :
    (addResponse { d with rejected_responses := rej } q r now).response_history =
      (addResponse d q r now).response_history := rfl

/-- Complete characterization of the `for attempt in range(...)` loop of
`generate_response` (lines 946–978), by induction on the remaining attempts:
the loop accepts the candidate of some attempt `attempt + k`, every earlier
candidate was rejected by the similarity check (against the *initial* history,
which the loop does not modify before acceptance), the accepted candidate
either passed the check or was the final allowed attempt, the accepted
response is recorded in the history exactly once via `add_response`, the
rejected candidates are appended (in order, with their reported similarity
and 1-based attempt number) to the rejected log only, and
`f"{key}_{attempt}"` is appended to `used_templates`. -/
theorem genLoop_char (query : String) (now : ℚ) (key : String) (gen : Nat → String) :
    ∀ (remaining attempt : Nat) (st : LlamaState), remaining ≠ 0 →
    ∃ k, k < remaining ∧
      (genLoop query now key gen remaining attempt st).response = gen (attempt + k) ∧
      (genLoop query now key gen remaining attempt st).attempts = attempt + k + 1 ∧
      (genLoop query now key gen remaining attempt st).state.used_templates =
        st.used_templates ++ [key ++ "_" ++ toString (attempt + k)] ∧
      (genLoop query now key gen remaining attempt st).state.diversity.response_history =
        (addResponse st.diversity query (gen (attempt + k)) now).response_history ∧
      (genLoop query now key gen remaining attempt st).state.diversity.max_history =
        st.diversity.max_history ∧
      (genLoop query now key gen remaining attempt st).state.diversity.similarity_threshold =
        st.diversity.similarity_threshold ∧
      (genLoop query now key gen remaining attempt st).state.diversity.rejected_responses =
        st.diversity.rejected_responses ++
          (List.range' attempt k).map (fun i =>
            { query := query, response := gen i,
              similarity := (checkSimilarity st.diversity (gen i)).2,
              attempt := i + 1 }) ∧
      (∀ i ∈ List.range' attempt k, (checkSimilarity st.diversity (gen i)).1 = true) ∧
      ((checkSimilarity st.diversity (gen (attempt + k))).1 = false ∨ k + 1 = remaining) := by
  intro remaining
  induction remaining with
  | zero => intro attempt st h; exact absurd rfl h
  | succ n ih =>
    intro attempt st _
    by_cases hacc : (checkSimilarity st.diversity (gen attempt)).1 = false ∨ n = 0
    · refine ⟨0, Nat.succ_pos n, ?_⟩
      have hloop : genLoop query now key gen (n + 1) attempt st =
          ⟨{ diversity := addResponse st.diversity query (gen attempt) now
             used_templates := st.used_templates ++ [key ++ "_" ++ toString attempt] },
           gen attempt, attempt + 1⟩ := by
        rw [genLoop, if_pos hacc]
      rw [hloop]
      refine ⟨rfl, rfl, rfl, rfl, rfl, rfl, ?_, ?_, ?_⟩
      · simp [addResponse]
      · simp
      · rcases hacc with hflag | hn
        · exact Or.inl hflag
        · exact Or.inr (by rw [hn])
    · push_neg at hacc
      obtain ⟨hflag0, hn⟩ := hacc
      have hflag : (checkSimilarity st.diversity (gen attempt)).1 = true := by
        simpa using hflag0
      set st' : LlamaState :=
        { st with
          diversity :=
            { st.diversity with
              rejected_responses := st.diversity.rejected_responses ++
                [{ query := query, response := gen attempt,
                   similarity := (checkSimilarity st.diversity (gen attempt)).2,
                   attempt := attempt + 1 }] } } with hst'
      have hloop : genLoop query now key gen (n + 1) attempt st =
          genLoop query now key gen n (attempt + 1) st' := by
        rw [genLoop, if_neg (by simp [hflag, hn])]
      obtain ⟨k', hk', hresp, hatt, hused, hhist, hmax, hthr, hrej, hall, hlast⟩ :=
        ih (attempt + 1) st' hn
      have hchk : ∀ s, checkSimilarity st'.diversity s = checkSimilarity st.diversity s := by
        intro s
        rw [hst']
        exact checkSimilarity_rejected_inv st.diversity _ s
      have harith : attempt + 1 + k' = attempt + (k' + 1) := by omega
      refine ⟨k' + 1, by omega, ?_, ?_, ?_, ?_, ?_, ?_, ?_, ?_, ?_⟩
      · rw [hloop, hresp, harith]
      · rw [hloop, hatt, harith]
      · rw [hloop, hused, hst', harith]
      · rw [hloop, hhist, harith, hst']
        exact addResponse_history_rejected_inv st.diversity _ query _ now
      · rw [hloop, hmax, hst']
      · rw [hloop, hthr, hst']
      · rw [hloop, hrej, hst']
        simp only [List.range'_succ, List.map_cons, List.append_assoc, List.cons_append,
          List.nil_append, checkSimilarity_rejected_inv]
      · intro i hi
        rw [List.range'_succ, List.mem_cons] at hi
        rcases hi with rfl | hi'
        · exact hflag
        · have := hall i hi'
          rwa [hchk] at this
      · rcases hlast with hfalse | hfin
        · left
          rw [hchk] at hfalse
          rwa [harith] at hfalse
        · right; omega

/-! ## Claim C3 -/

/-- C3: every `generate_response` call accepts the candidate of some attempt
`attempts ≤ 3 = max_attempts`; every earlier candidate was rejected by the
similarity gate; and the accepted response either passed the gate against the
last 5 history entries (no Ratcliff/Obershelp ratio above the configured
threshold) or was produced on the final allowed attempt (`attempts = 3`). -/
theorem generate_response_diversity_bound (gen : Nat → String) (query : String)
    (now : ℚ) (st : LlamaState) :
    1 ≤ (generateResponse gen query now st).attempts ∧
    (generateResponse gen query now st).attempts ≤ 3 ∧
    (generateResponse gen query now st).response =
      gen ((generateResponse gen query now st).attempts - 1) ∧
    (∀ i, i + 1 < (generateResponse gen query now st).attempts →
      (checkSimilarity st.diversity (gen i)).1 = true) ∧
    ((∀ r ∈ lastN 5 st.diversity.response_history,
        ratioFn (generateResponse gen query now st).response r.response ≤
          st.diversity.similarity_threshold) ∨
      (generateResponse gen query now st).attempts = 3) := by
  obtain ⟨k, hk, hresp, hatt, -, -, -, -, -, hall, hlast⟩ :=
    genLoop_char query now (classifyQueryForTemplate query) gen 3 0 st (by omega)
  rw [generateResponse] at *
  simp only [Nat.zero_add] at hresp hatt hall hlast
  refine ⟨by omega, by omega, ?_, ?_, ?_⟩
  · rw [hresp, hatt, Nat.add_sub_cancel]
  · intro i hi
    rw [hatt] at hi
    exact hall i (List.mem_range'_1.mpr (by omega))
  · rcases hlast with hfalse | hfin
    · left
      intro r hr
      rw [hresp]
      exact (checkSimilarity_fst_false_iff st.diversity (gen k)).mp hfalse r hr
    · right
      rw [hatt]; omega

/-! ## Claim C8 -/

/-- C8: within one `generate_response` call, rejected candidates are never
added to the diversity history — the final history is the initial one
extended (with capacity eviction) by exactly the one accepted response — and
each rejected candidate is appended to the separate `rejected_responses` log
together with its reported similarity score and its 1-based attempt number. -/
theorem generate_response_history_and_rejected_log (gen : Nat → String)
    (query : String) (now : ℚ) (st : LlamaState) :
    ∃ k, k < 3 ∧
      (generateResponse gen query now st).response = gen k ∧
      (generateResponse gen query now st).state.diversity.response_history =
        (addResponse st.diversity query (gen k) now).response_history ∧
      (generateResponse gen query now st).state.diversity.rejected_responses =
        st.diversity.rejected_responses ++
          (List.range' 0 k).map (fun i =>
            { query := query, response := gen i,
              similarity := (checkSimilarity st.diversity (gen i)).2,
              attempt := i + 1 }) ∧
      (∀ i ∈ List.range' 0 k, (checkSimilarity st.diversity (gen i)).1 = true) := by
  obtain ⟨k, hk, hresp, -, -, hhist, -, -, hrej, hall, -⟩ :=
    genLoop_char query now (classifyQueryForTemplate query) gen 3 0 st (by omega)
  rw [generateResponse] at *
  simp only [Nat.zero_add] at hresp hhist hrej
  exact ⟨k, hk, hresp, hhist, hrej, hall⟩

/-! ## Claim C10 -/

/-- C10: on an empty diversity history (a fresh session), `check_similarity`
returns `(False, 0.0)` for every candidate, so `generate_response` accepts
its first candidate on attempt 1, with no change to the rejected log. -/
theorem first_response_accepted_on_empty_history (gen : Nat → String)
    (query candidate : String) (now : ℚ) (st : LlamaState)
    (h : st.diversity.response_history = []) :
    checkSimilarity st.diversity candidate = (false, 0) ∧
    (generateResponse gen query now st).attempts = 1 ∧
    (generateResponse gen query now st).response = gen 0 ∧
    (generateResponse gen query now st).state.diversity.rejected_responses =
      st.diversity.rejected_responses := by
  have hchk : ∀ c, checkSimilarity st.diversity c = (false, 0) := by
    intro c
    rw [checkSimilarity, if_pos h]
  obtain ⟨k, hk, hresp, hatt, -, -, -, -, hrej, hall, -⟩ :=
    genLoop_char query now (classifyQueryForTemplate query) gen 3 0 st (by omega)
  rw [generateResponse] at *
  simp only [Nat.zero_add] at hresp hatt hrej
  have hk0 : k = 0 := by
    by_contra h0
    have hmem : 0 ∈ List.range' 0 k := List.mem_range'_1.mpr (by omega)
    have := hall 0 hmem
    rw [hchk] at this
    simp at this
  subst hk0
  refine ⟨hchk candidate, by rw [hatt], hresp, ?_⟩
  rw [hrej]
  simp

/-- C10 witness: a fresh `DefenseCooperationLlama` session, a concrete
candidate generator, and a concrete query. -/
theorem first_response_accepted_on_empty_history_witness :
    initLlamaState.diversity.response_history = [] ∧
    (checkSimilarity initLlamaState.diversity "테스트 응답" = (false, 0) ∧
      (generateResponse (fun _ => "테스트 응답") "인도" 0 initLlamaState).attempts = 1 ∧
      (generateResponse (fun _ => "테스트 응답") "인도" 0 initLlamaState).response = "테스트 응답" ∧
      (generateResponse (fun _ => "테스트 응답") "인도" 0 initLlamaState).state.diversity.rejected_responses =
        initLlamaState.diversity.rejected_responses) :=
  ⟨rfl, first_response_accepted_on_empty_history (fun _ => "테스트 응답") "인도" "테스트 응답" 0
    initLlamaState rfl⟩

/-! ## Claim C6 -/

/-- On a fresh session (`used_templates = []`), `get_diverse_response` samples
from the whole registered template list of the classified category. -/
theorem getDiverseResponse_all_unused (tmpl : String → Option (List String))
    (divHdr : String → String) (choose : Nat) (q : String) (l : List String)
    (htmpl : tmpl (classifyQueryForTemplate q) = some l) (hne : l ≠ []) :
    getDiverseResponse tmpl divHdr choose q [] =
      divHdr (l.getD (choose % l.length) "") := by
  simp only [getDiverseResponse, availableTemplates, unusedTemplates, htmpl,
    Option.getD_some, if_neg hne, List.contains_nil, Bool.not_false,
    List.enum_map_snd, ne_eq, List.map_map]
  have hfil : ∀ m : List (Nat × String),
      m.filter (fun p => decide ¬false = true) = m := by
    intro m
    apply List.filter_eq_self.mpr
    intro a _
    simp
  rw [hfil, List.enum_map_snd]
  rw [if_pos (by simpa using hne)]

/-- C6 (code bug): in dummy mode, with a fresh session and the query
`"인도 미사일 협력"`, suppose `random.choice` selects template index 2 of the
category `"인도_미사일"` (which holds 5 templates in the source) and the
candidate is accepted on the first attempt (the history is empty).  Then
`generate_response` appends `"인도_미사일_0"` — category key plus *attempt
number* — to `used_templates` (line 969), not the identifier
`"인도_미사일_2"` of the template that was actually selected.  Consequently
the next call's unused-filter excludes the never-used template 0 while the
just-used template 2 is still offered for immediate reuse. -/
theorem used_templates_record_attempt_not_selected
    (tmpl : String → Option (List String)) (divHdr : String → String)
    (choose : Nat → Nat) (now : ℚ) (l : List String)
    (htmpl : tmpl "인도_미사일" = some l) (hlen : l.length = 5) (hch : choose 0 = 2) :
    (generateResponse
        (fun a => getDiverseResponse tmpl divHdr (choose a) "인도 미사일 협력"
          initLlamaState.used_templates)
        "인도 미사일 협력" now initLlamaState).response = divHdr (l.getD 2 "") ∧
    (generateResponse
        (fun a => getDiverseResponse tmpl divHdr (choose a) "인도 미사일 협력"
          initLlamaState.used_templates)
        "인도 미사일 협력" now initLlamaState).state.used_templates = ["인도_미사일_0"] ∧
    "인도_미사일_2" ∉
      (generateResponse
        (fun a => getDiverseResponse tmpl divHdr (choose a) "인도 미사일 협력"
          initLlamaState.used_templates)
        "인도 미사일 협력" now initLlamaState).state.used_templates ∧
    (unusedTemplates "인도_미사일" (availableTemplates tmpl "인도_미사일")
        ["인도_미사일_0"]).map (fun p => p.2) = l.tail ∧
    l.getD 2 "" ∈ l.tail := by
  have hkey : classifyQueryForTemplate "인도 미사일 협력" = "인도_미사일" := by decide
  have hne : l ≠ [] := by
    intro h
    rw [h] at hlen
    simp at hlen
  have hgen0 : getDiverseResponse tmpl divHdr (choose 0) "인도 미사일 협력" [] =
      divHdr (l.getD 2 "") := by
    rw [getDiverseResponse_all_unused tmpl divHdr (choose 0) _ l
      (by rw [hkey]; exact htmpl) hne]
    rw [hch, hlen]
  obtain ⟨k, hk, hresp, hatt, hused, -, -, -, hrej, hall, -⟩ :=
    genLoop_char "인도 미사일 협력" now (classifyQueryForTemplate "인도 미사일 협력")
      (fun a => getDiverseResponse tmpl divHdr (choose a) "인도 미사일 협력"
        initLlamaState.used_templates)
      3 0 initLlamaState (by omega)
  rw [generateResponse] at *
  have hk0 : k = 0 := by
    by_contra h0
    have hmem : 0 ∈ List.range' 0 k := List.mem_range'_1.mpr (by omega)
    have hflag := hall 0 hmem
    have : checkSimilarity initLlamaState.diversity
        (getDiverseResponse tmpl divHdr (choose 0) "인도 미사일 협력"
          initLlamaState.used_templates) = (false, 0) := rfl
    rw [this] at hflag
    simp at hflag
  subst hk0
  have huse2 : (genLoop "인도 미사일 협력" now
      (classifyQueryForTemplate "인도 미사일 협력")
      (fun a => getDiverseResponse tmpl divHdr (choose a) "인도 미사일 협력"
        initLlamaState.used_templates)
      3 0 initLlamaState).state.used_templates = ["인도_미사일_0"] :=
    hused.trans (by decide)
  have havail : availableTemplates tmpl "인도_미사일" = l := by
    simp [availableTemplates, htmpl, hne]
  refine ⟨?_, huse2, ?_, ?_, ?_⟩
  · rw [hresp]
    exact hgen0
  · rw [huse2]
    decide
  · rw [havail]
    rcases l with _ | ⟨a, _ | ⟨b, _ | ⟨c, _ | ⟨d, _ | ⟨e, _ | ⟨f, t⟩⟩⟩⟩⟩⟩ <;>
      simp at hlen
    have henum : ([a, b, c, d, e] : List String).enum =
        [(0, a), (1, b), (2, c), (3, d), (4, e)] := rfl
    simp only [unusedTemplates, henum, List.filter_cons, List.filter_nil]
    norm_num [show ("인도_미사일" : String) ++ "_" ++ toString 0 = "인도_미사일_0" from by decide,
      show ("인도_미사일" : String) ++ "_" ++ toString 1 ≠ "인도_미사일_0" from by decide,
      show ("인도_미사일" : String) ++ "_" ++ toString 2 ≠ "인도_미사일_0" from by decide,
      show ("인도_미사일" : String) ++ "_" ++ toString 3 ≠ "인도_미사일_0" from by decide,
      show ("인도_미사일" : String) ++ "_" ++ toString 4 ≠ "인도_미사일_0" from by decide]
  · rcases l with _ | ⟨a, _ | ⟨b, _ | ⟨c, _ | ⟨d, _ | ⟨e, _ | ⟨f, t⟩⟩⟩⟩⟩⟩ <;>
      simp at hlen
    simp

/-- C6 witness: a concrete 5-template corpus for `"인도_미사일"`, identity
header diversification, and a choice oracle picking index 2. -/
theorem used_templates_record_attempt_not_selected_witness :
    (generateResponse
        (fun a => getDiverseResponse
          (fun key => if key = "인도_미사일" then some ["T0", "T1", "T2", "T3", "T4"] else none)
          id ((fun _ => 2) a) "인도 미사일 협력" initLlamaState.used_templates)
        "인도 미사일 협력" 0 initLlamaState).response = id "T2" ∧
    (generateResponse
        (fun a => getDiverseResponse
          (fun key => if key = "인도_미사일" then some ["T0", "T1", "T2", "T3", "T4"] else none)
          id ((fun _ => 2) a) "인도 미사일 협력" initLlamaState.used_templates)
        "인도 미사일 협력" 0 initLlamaState).state.used_templates = ["인도_미사일_0"] ∧
    "인도_미사일_2" ∉
      (generateResponse
        (fun a => getDiverseResponse
          (fun key => if key = "인도_미사일" then some ["T0", "T1", "T2", "T3", "T4"] else none)
          id ((fun _ => 2) a) "인도 미사일 협력" initLlamaState.used_templates)
        "인도 미사일 협력" 0 initLlamaState).state.used_templates ∧
    (unusedTemplates "인도_미사일"
        (availableTemplates
          (fun key => if key = "인도_미사일" then some ["T0", "T1", "T2", "T3", "T4"] else none)
          "인도_미사일")
        ["인도_미사일_0"]).map (fun p => p.2) = ["T0", "T1", "T2", "T3", "T4"].tail ∧
    (["T0", "T1", "T2", "T3", "T4"] : List String).getD 2 "" ∈
      (["T0", "T1", "T2", "T3", "T4"] : List String).tail :=
  used_templates_record_attempt_not_selected
    (fun key => if key = "인도_미사일" then some ["T0", "T1", "T2", "T3", "T4"] else none)
    id (fun _ => 2) 0 ["T0", "T1", "T2", "T3", "T4"] (by decide) (by decide) (by decide)

/-! ## Claim C2 -/

/-- Taking the last `n` of a list already truncated to its last `n` elements,
after appending, is the same as truncating the whole appended list. -/
theorem lastN_append_lastN (n : Nat) (xs ys : List α) :
    lastN n (lastN n xs ++ ys) = lastN n (xs ++ ys) := by
  unfold lastN
  rw [List.drop_append_eq_append_drop, List.drop_append_eq_append_drop,
    List.drop_drop]
  congr 1
  · congr 1
    simp only [List.length_append, List.length_drop]
    omega
  · congr 1
    simp only [List.length_append, List.length_drop]
    omega

/-- One `add_response` step on a within-capacity state: the new history is
the last `max_history` records of the appended history. -/
theorem addResponse_history_eq (st : DiversityState) (q r : String) (now : ℚ)
    (hmax : st.max_history = 10) (hlen : st.response_history.length ≤ 10) :
    (addResponse st q r now).response_history =
      lastN 10 (st.response_history ++ [mkResponseRecord q r now]) := by
  unfold addResponse lastN
  dsimp only
  rw [hmax]
  rcases Nat.lt_or_ge st.response_history.length 10 with hlt | hge
  · rw [if_neg (by simp; omega)]
    have h0 : (st.response_history ++ [mkResponseRecord q r now]).length - 10 = 0 := by
      simp; omega
    rw [h0, List.drop_zero]
  · have h10 : st.response_history.length = 10 := le_antisymm hlen hge
    rw [if_pos (by simp; omega)]
    have h1 : (st.response_history ++ [mkResponseRecord q r now]).length - 10 = 1 := by
      simp; omega
    rw [h1, List.drop_one]

/-- The fold of `add_response` over any operation sequence, from any
within-capacity state with capacity 10: the resulting history is the last 10
of all records, and the capacity field is preserved. -/
theorem foldl_addResponse_char (ops : List (String × String × ℚ)) :
    ∀ st : DiversityState, st.max_history = 10 → st.response_history.length ≤ 10 →
    (ops.foldl (fun s o => addResponse s o.1 o.2.1 o.2.2) st).response_history =
      lastN 10 (st.response_history ++
        ops.map (fun o => mkResponseRecord o.1 o.2.1 o.2.2)) ∧
    (ops.foldl (fun s o => addResponse s o.1 o.2.1 o.2.2) st).max_history = 10 := by
  induction ops with
  | nil =>
    intro st hmax hlen
    refine ⟨?_, hmax⟩
    simp only [List.foldl_nil, List.map_nil, List.append_nil, lastN]
    rw [Nat.sub_eq_zero_of_le hlen, List.drop_zero]
  | cons o rest ih =>
    intro st hmax hlen
    rw [List.foldl_cons]
    have hmax' : (addResponse st o.1 o.2.1 o.2.2).max_history = 10 := hmax
    have hstep := addResponse_history_eq st o.1 o.2.1 o.2.2 hmax hlen
    have hlen' : (addResponse st o.1 o.2.1 o.2.2).response_history.length ≤ 10 := by
      rw [hstep]
      simp only [lastN, List.length_drop]
      omega
    obtain ⟨hist, hmaxfin⟩ := ih (addResponse st o.1 o.2.1 o.2.2) hmax' hlen'
    refine ⟨?_, hmaxfin⟩
    rw [hist, hstep, lastN_append_lastN, List.append_assoc, List.map_cons,
      List.singleton_append]

/-- The fold of `add_response` over an operation sequence starting from a
fresh `ResponseDiversityManager` (`max_history = 10`). -/
def applyAddResponses (ops : List (String × String × ℚ)) : DiversityState :=
  ops.foldl (fun s o => addResponse s o.1 o.2.1 o.2.2) initDiversityState

/-- The last element survives taking the tail of a list with at least two
elements. -/
theorem getLast?_tail_of_two_le (l : List α) (h : 2 ≤ l.length) :
    l.tail.getLast? = l.getLast? := by
  cases l with
  | nil => simp at h
  | cons a rest =>
    cases rest with
    | nil => simp at h
    | cons b t => simp [List.getLast?_cons_cons]

/-- C2: for every sequence of `add_response` calls on a fresh manager with
capacity 10, the history is the last 10 of all inserted records (so its
length never exceeds 10); after exactly 11 insertions the history is the tail
of the record sequence — the oldest record is evicted (absent whenever the
records are distinct) and the newest is present. -/
theorem history_capacity_fifo (ops : List (String × String × ℚ)) :
    (applyAddResponses ops).response_history.length ≤ 10 ∧
    (applyAddResponses ops).response_history =
      lastN 10 (ops.map (fun o => mkResponseRecord o.1 o.2.1 o.2.2)) ∧
    (ops.length = 11 →
      (applyAddResponses ops).response_history =
        (ops.map (fun o => mkResponseRecord o.1 o.2.1 o.2.2)).tail ∧
      (applyAddResponses ops).response_history.getLast? =
        (ops.map (fun o => mkResponseRecord o.1 o.2.1 o.2.2)).getLast? ∧
      ((ops.map (fun o => mkResponseRecord o.1 o.2.1 o.2.2)).Nodup →
        ∀ r, (ops.map (fun o => mkResponseRecord o.1 o.2.1 o.2.2)).head? = some r →
          r ∉ (applyAddResponses ops).response_history)) := by
  obtain ⟨hist, -⟩ := foldl_addResponse_char ops initDiversityState rfl (by simp [initDiversityState])
  have hist0 : (applyAddResponses ops).response_history =
      lastN 10 (ops.map (fun o => mkResponseRecord o.1 o.2.1 o.2.2)) := by
    rw [applyAddResponses, hist]
    rfl
  refine ⟨?_, hist0, ?_⟩
  · rw [hist0]
    simp only [lastN, List.length_drop]
    omega
  · intro h11
    have hmaplen : (ops.map (fun o => mkResponseRecord o.1 o.2.1 o.2.2)).length = 11 := by
      rw [List.length_map, h11]
    have htail : (applyAddResponses ops).response_history =
        (ops.map (fun o => mkResponseRecord o.1 o.2.1 o.2.2)).tail := by
      rw [hist0, lastN, hmaplen]
      exact List.drop_one _
    refine ⟨htail, ?_, ?_⟩
    · rw [htail]
      exact getLast?_tail_of_two_le _ (by omega)
    · intro hnodup r hhead
      rw [htail]
      cases hmap : ops.map (fun o => mkResponseRecord o.1 o.2.1 o.2.2) with
      | nil => rw [hmap] at hmaplen; simp at hmaplen
      | cons r0 t =>
        rw [hmap] at hhead hnodup
        simp only [List.head?_cons, Option.some_inj] at hhead
        rw [List.tail_cons, ← hhead]
        exact (List.nodup_cons.mp hnodup).1

/-- Eleven concrete insertions (capacity + 1) with pairwise distinct records. -/
def c2Ops : List (String × String × ℚ) :=
  [("q01", "r01", mkRat 1 1), ("q02", "r02", mkRat 2 1), ("q03", "r03", mkRat 3 1),
   ("q04", "r04", mkRat 4 1), ("q05", "r05", mkRat 5 1), ("q06", "r06", mkRat 6 1),
   ("q07", "r07", mkRat 7 1), ("q08", "r08", mkRat 8 1), ("q09", "r09", mkRat 9 1),
   ("q10", "r10", mkRat 10 1), ("q11", "r11", mkRat 11 1)]

/-- C2 witness: after the 11 concrete insertions of `c2Ops` the history is
the tail of the record sequence, holds 10 records, still ends with the
newest record, and no longer contains the oldest record. -/
theorem history_capacity_fifo_witness :
    c2Ops.length = 11 ∧
    (applyAddResponses c2Ops).response_history.length ≤ 10 ∧
    (applyAddResponses c2Ops).response_history =
      (c2Ops.map (fun o => mkResponseRecord o.1 o.2.1 o.2.2)).tail ∧
    (applyAddResponses c2Ops).response_history.getLast? =
      (c2Ops.map (fun o => mkResponseRecord o.1 o.2.1 o.2.2)).getLast? ∧
    mkResponseRecord "q01" "r01" (mkRat 1 1) ∉
      (applyAddResponses c2Ops).response_history :=
  ⟨by decide, (history_capacity_fifo c2Ops).1,
   ((history_capacity_fifo c2Ops).2.2 (by decide)).1,
   ((history_capacity_fifo c2Ops).2.2 (by decide)).2.1,
   ((history_capacity_fifo c2Ops).2.2 (by decide)).2.2 (by decide)
     (mkResponseRecord "q01" "r01" (mkRat 1 1)) (by decide)⟩

/-! ## Claim C9 -/

/-- The similarity of one unordered pair, for the spec-side formulation of
"average pairwise similarity": a 2-element sublist `[x, y]` is mapped to
`ratio(x, y)`. -/
def pairRatio (p : List String) : ℚ :=
  ratioFn (p.getD 0 "") (p.getD 1 "")

/-- The double loop of `get_diversity_metrics` produces, as a multiset,
exactly the ratios of all 2-element sublists. -/
theorem pairwiseSims_multiset :
    ∀ l : List String,
      (↑(pairwiseSims l) : Multiset ℚ) = ↑((l.sublistsLen 2).map pairRatio) := by
  intro l
  induction l with
  | nil => rfl
  | cons x rest ih =>
    calc (↑(pairwiseSims (x :: rest)) : Multiset ℚ)
        = ↑(rest.map (fun s => ratioFn x s)) + ↑(pairwiseSims rest) := by
          rw [pairwiseSims]
          exact Multiset.coe_add _ _
      _ = ↑(rest.map (fun s => ratioFn x s)) + ↑((rest.sublistsLen 2).map pairRatio) := by
          rw [ih]
      _ = ↑(((x :: rest).sublistsLen 2).map pairRatio) := by
          rw [List.sublistsLen_succ_cons, List.map_append, List.map_map,
            List.sublistsLen_one, List.map_map, Multiset.coe_add]
          simp only [Nat.reduceAdd]
          rw [show ((pairRatio ∘ List.cons x) ∘ fun y => [y]) =
              (fun s => ratioFn x s) from funext fun y => rfl]
          refine Multiset.coe_eq_coe.mpr ?_
          exact (List.perm_append_comm).trans
            (List.Perm.append_left _ ((List.reverse_perm rest).map _).symm)

/-- Sum of the double-loop similarity list equals the sum over all 2-element
sublists. -/
theorem pairwiseSims_sum (l : List String) :
    (pairwiseSims l).sum = ((l.sublistsLen 2).map pairRatio).sum := by
  have h := congrArg Multiset.sum (pairwiseSims_multiset l)
  simpa using h

/-- Length of the double-loop similarity list equals the number of 2-element
sublists. -/
theorem pairwiseSims_length (l : List String) :
    (pairwiseSims l).length = ((l.sublistsLen 2).map pairRatio).length := by
  have h := congrArg Multiset.card (pairwiseSims_multiset l)
  simpa using h

/-- At least one pair exists once the list has two elements. -/
theorem pairwiseSims_ne_nil (l : List String) (h : 2 ≤ l.length) :
    pairwiseSims l ≠ [] := by
  cases l with
  | nil => simp at h
  | cons a rest =>
    cases rest with
    | nil => simp at h
    | cons b t => simp [pairwiseSims]

/-- C9 (amended): with at least 2 records in the history,
`get_diversity_metrics` reports `avg_similarity` equal to the average
Ratcliff/Obershelp ratio over all unordered pairs of the last 5 responses,
`diversity_score = 1 - avg_similarity`, `total_responses` equal to the
history length and `rejected_count` equal to the cumulative rejected count;
with fewer than 2 records it reports only
`{diversity_score: 1.0, avg_similarity: 0.0}` — the `total_responses` and
`rejected_count` keys are absent from the returned dict. -/
theorem get_diversity_metrics_char (st : DiversityState) :
    (2 ≤ st.response_history.length →
      (getDiversityMetrics st).avg_similarity =
        ((((lastN 5 st.response_history).map (fun r => r.response)).sublistsLen 2).map
            pairRatio).sum /
          (((((lastN 5 st.response_history).map (fun r => r.response)).sublistsLen 2).map
            pairRatio).length : ℚ) ∧
      (getDiversityMetrics st).diversity_score =
        1 - (getDiversityMetrics st).avg_similarity ∧
      (getDiversityMetrics st).total_responses = some st.response_history.length ∧
      (getDiversityMetrics st).rejected_count = some st.rejected_responses.length) ∧
    (st.response_history.length < 2 →
      getDiversityMetrics st =
        { diversity_score := 1, avg_similarity := 0
          total_responses := none, rejected_count := none }) := by
  constructor
  · intro h2
    have hnotlt : ¬ st.response_history.length < 2 := not_lt.mpr h2
    have hlast2 : 2 ≤ ((lastN 5 st.response_history).map (fun r => r.response)).length := by
      simp only [List.length_map, lastN, List.length_drop]
      omega
    have hne := pairwiseSims_ne_nil _ hlast2
    have hm : getDiversityMetrics st =
        { diversity_score := 1 -
            (pairwiseSims ((lastN 5 st.response_history).map (fun r => r.response))).sum /
              ((pairwiseSims ((lastN 5 st.response_history).map (fun r => r.response))).length : ℚ)
          avg_similarity :=
            (pairwiseSims ((lastN 5 st.response_history).map (fun r => r.response))).sum /
              ((pairwiseSims ((lastN 5 st.response_history).map (fun r => r.response))).length : ℚ)
          total_responses := some st.response_history.length
          rejected_count := some st.rejected_responses.length } := by
      rw [getDiversityMetrics, if_neg hnotlt]
      simp only [if_neg hne]
    rw [hm]
    refine ⟨?_, rfl, rfl, rfl⟩
    rw [pairwiseSims_sum, pairwiseSims_length]
  · intro hlt
    rw [getDiversityMetrics, if_pos hlt]

/-- C9 counterexample to the claim as stated: on an empty history the
returned dict carries no `total_responses` (and no `rejected_count`) entry,
although the claim requires them to be reported alongside the scores. -/
theorem get_diversity_metrics_missing_fields_counterexample :
    initDiversityState.response_history.length = 0 ∧
    (getDiversityMetrics initDiversityState).total_responses = none ∧
    (getDiversityMetrics initDiversityState).rejected_count = none ∧
    (getDiversityMetrics initDiversityState).total_responses ≠
      some initDiversityState.response_history.length :=
  ⟨rfl, rfl, rfl, by simp [getDiversityMetrics, initDiversityState]⟩

/-- A concrete reachable manager state with two recorded responses. -/
def c9State : DiversityState :=
  addResponse (addResponse initDiversityState "q1" "abcd" (mkRat 0 1)) "q2" "abxy" (mkRat 1 1)

/-- C9 witness: the amended characterization evaluated on a concrete 2-record
history and, for the under-2 branch, on a fresh manager. -/
theorem get_diversity_metrics_char_witness :
    (2 ≤ c9State.response_history.length ∧
      ((getDiversityMetrics c9State).avg_similarity =
        ((((lastN 5 c9State.response_history).map (fun r => r.response)).sublistsLen 2).map
            pairRatio).sum /
          (((((lastN 5 c9State.response_history).map (fun r => r.response)).sublistsLen 2).map
            pairRatio).length : ℚ) ∧
      (getDiversityMetrics c9State).diversity_score =
        1 - (getDiversityMetrics c9State).avg_similarity ∧
      (getDiversityMetrics c9State).total_responses = some c9State.response_history.length ∧
      (getDiversityMetrics c9State).rejected_count = some c9State.rejected_responses.length)) ∧
    (initDiversityState.response_history.length < 2 ∧
      getDiversityMetrics initDiversityState =
        { diversity_score := 1, avg_similarity := 0
          total_responses := none, rejected_count := none }) :=
  ⟨⟨by decide, (get_diversity_metrics_char c9State).1 (by decide)⟩,
   ⟨by decide, (get_diversity_metrics_char initDiversityState).2 (by decide)⟩⟩

/-! ## Claim C5 -/

/-- The scan loop of `find_pdf_answer` returns the response of the *first*
entry clearing its own threshold, i.e. `find?` composed with the response
projection. -/
theorem findPdfAnswerLoop_eq_find (ql : String) :
    ∀ db : List QaEntry,
      findPdfAnswerLoop ql db =
        (db.find? (fun e => clearsThreshold ql e)).map (fun e => e.response) := by
  intro db
  induction db with
  | nil => rfl
  | cons e rest ih =>
    by_cases h : clearsThreshold ql e = true
    · rw [findPdfAnswerLoop, if_pos h, List.find?_cons_of_pos _ h]
      rfl
    · rw [findPdfAnswerLoop, if_neg h, List.find?_cons_of_neg _ (by simpa using h), ih]

/-- C5 (amended): `find_pdf_answer` walks the QA database in registration
order and returns, verbatim, the full registered answer of the *first* entry
whose keyword match count against the lowercased query reaches at least half
the size of that entry's keyword set (`match_score >= len(keywords) * 0.5`);
it returns `None` exactly when no entry reaches its threshold.  (It does not
select the best-scoring entry, and the comparison is `≥`, not `>`.) -/
theorem find_pdf_answer_first_match (q : String) :
    findPdfAnswer q =
      (pdfQaDatabase.find? (fun e => clearsThreshold (pyLower q) e)).map
        (fun e => e.response) ∧
    (findPdfAnswer q = none ↔
      ∀ e ∈ pdfQaDatabase, ¬ (clearsThreshold (pyLower q) e = true)) := by
  have hmain := findPdfAnswerLoop_eq_find (pyLower q) pdfQaDatabase
  refine ⟨hmain, ?_⟩
  rw [findPdfAnswer, hmain]
  rw [Option.map_eq_none']
  rw [List.find?_eq_none]

/-- C5 counterexample to the claim as stated: for the query
`"중동 북아프리카 인도 미사일 협력"` the entry `인도_미사일_협력` is the
best-scoring one (3 keyword hits, threshold 2.5), yet `find_pdf_answer`
returns the answer of `중동_우선순위` (2 hits, exactly its threshold 2.0),
because that entry comes first in registration order and the comparison is
`>=`. -/
theorem find_pdf_answer_not_best_counterexample :
    findPdfAnswer "중동 북아프리카 인도 미사일 협력" = some qaMena.response ∧
    matchScore (pyLower "중동 북아프리카 인도 미사일 협력") qaMena = 2 ∧
    matchScore (pyLower "중동 북아프리카 인도 미사일 협력") qaIndiaMissile = 3 ∧
    qaIndiaMissile ∈ pdfQaDatabase ∧
    qaMena.response ≠ qaIndiaMissile.response := by
  refine ⟨rfl, by decide, by decide, ?_, ?_⟩
  · rw [pdfQaDatabase]
    exact List.mem_cons_of_mem _ (List.mem_cons_of_mem _ (List.mem_cons_self _ _))
  · intro h
    have hh := congrArg (fun s : String => s.toList.head?) h
    simp only at hh
    exact absurd hh (by decide)

/-! ## Claim C7 -/

/-- C7 (amended): `is_defense_related` returns `True` iff some keyword of the
fixed vocabulary occurs as a substring of the *lowercased* query; since the
matching is verbatim against the lowercased text, the vocabulary entries
containing uppercase letters (`"UAE"`, `"AI"`) can never match.  The empty
query is out of scope. -/
theorem is_defense_related_char (q : String) :
    (isDefenseRelated q = true ↔
      ∃ k ∈ defenseKeywords, k.toList <:+: (pyLower q).toList) ∧
    isDefenseRelated "" = false := by
  refine ⟨?_, by decide⟩
  show (defenseKeywords.any fun keyword => pyContains (pyLower q) keyword) = true ↔ _
  rw [List.any_eq_true]
  constructor
  · rintro ⟨k, hk, hc⟩
    exact ⟨k, hk, (listContains_iff _ _).mp hc⟩
  · rintro ⟨k, hk, hinf⟩
    exact ⟨k, hk, (listContains_iff _ _).mpr hinf⟩

/-- C7 counterexample to the claim as stated: the vocabulary keyword `"UAE"`
occurs verbatim in the query `"UAE"`, yet `is_defense_related "UAE"` is
`False`, because the query is lowercased to `"uae"` before the verbatim
keyword comparison. -/
theorem is_defense_related_counterexample :
    "UAE" ∈ defenseKeywords ∧
    listContains "UAE".toList "UAE".toList = true ∧
    isDefenseRelated "UAE" = false ∧
    pyLower "UAE" = "uae" := by
  refine ⟨by decide, by decide, by decide, by decide⟩

/-! ## Claim C1 -/

/-- C1: for every oracle behaviour (external system present or absent,
raising or returning any dict; built-in generator returning or raising) and
every input, `chat` of an initialized chatbot returns a response string and
`detailed_chat` returns a dict with a `response` entry; an exception from the
built-in generator is converted into the fixed textual fallback (with
`error = True` and `mode = "error_handling"` in the detailed dict), never
propagated. -/
theorem chat_detailed_chat_total_fallback (o : ChatOracle) (q : String) :
    (∃ r, o.llamaAvailable = true ∧ o.llamaResult = .ok r ∧ qualityOk r.response = true ∧
      chat true o q = r.response ∧
      detailedChat true o q = { response := r.response, error := r.error, mode := none }) ∨
    (∃ s, o.intelligentResult = .ok s ∧
      chat true o q = s ∧
      detailedChat true o q =
        { response := s, error := false, mode := some "intelligent_dynamic_generation" }) ∨
    (∃ e, o.intelligentResult = .error e ∧
      chat true o q = "죄송합니다. 응답 생성 중 오류가 발생했습니다: " ++ e ∧
      detailedChat true o q =
        { response := "상세 응답 생성 중 오류가 발생했습니다: " ++ e,
          error := true, mode := some "error_handling" }) := by
  by_cases hav : o.llamaAvailable = true
  · rcases hres : o.llamaResult with e | r
    · rcases hint : o.intelligentResult with e' | s
      · right; right
        exact ⟨e', rfl, by simp [chat, hav, hres, hint], by simp [detailedChat, hav, hres, hint]⟩
      · right; left
        exact ⟨s, rfl, by simp [chat, hav, hres, hint], by simp [detailedChat, hav, hres, hint]⟩
    · by_cases hq : qualityOk r.response = true
      · left
        exact ⟨r, hav, rfl, hq, by simp [chat, hav, hres, hq],
          by simp [detailedChat, hav, hres, hq]⟩
      · rcases hint : o.intelligentResult with e' | s
        · right; right
          exact ⟨e', rfl, by simp [chat, hav, hres, hq, hint],
            by simp [detailedChat, hav, hres, hq, hint]⟩
        · right; left
          exact ⟨s, rfl, by simp [chat, hav, hres, hq, hint],
            by simp [detailedChat, hav, hres, hq, hint]⟩
  · rcases hint : o.intelligentResult with e' | s
    · right; right
      exact ⟨e', rfl, by simp [chat, hav, hint], by simp [detailedChat, hav, hint]⟩
    · right; left
      exact ⟨s, rfl, by simp [chat, hav, hint], by simp [detailedChat, hav, hint]⟩
